import Mathlib

set_option linter.unusedVariables false
set_option maxRecDepth 100000

/-!
# Verification of the VeloPark schedule-to-calendar pipeline

Shallow embedding of `api/calendar.py` (jystewart/velopark-calendar).
Python strings are modelled as `List Char`; Python dicts (which preserve
insertion order) as association lists; `datetime` values as either
(year, month, day) triples or as ordinal day counts (days since 2025-01-01,
the only year the source's week parser produces).  `datetime(y, m, d)`
construction is modelled by its documented contract: out-of-range month/day
arguments are rejected (ValueError, which the source catches), yielding `none`.
The ambient UTC timestamp `datetime.utcnow()` used for DTSTAMP is threaded as
an explicit parameter.
-/

namespace Velopark

/-- Python `str.lower()` / `re.IGNORECASE`, restricted to ASCII letters. -/
def lowerC (c : Char) : Char := c.toLower

/-- Python whitespace class `\s` (and `str.strip()` default), ASCII part:
space, tab, newline, carriage return, vertical tab, form feed. -/
def isPySpace (c : Char) : Bool :=
  c == ' ' || c == '\t' || c == '\n' || c == '\r' || c.toNat == 11 || c.toNat == 12

/-- `HH:MM` shape: two digits, a colon, two digits (regex `\d{2}:\d{2}`). -/
def time5 (a b c d e : Char) : Bool :=
  a.isDigit && b.isDigit && c == ':' && d.isDigit && e.isDigit

/-- `needle` occurs at the head of the second list. -/
def leadsWith : List Char → List Char → Bool
  | [], _ => true
  | _ :: _, [] => false
  | n :: ns, h :: hs => n == h && leadsWith ns hs

/-- Python substring test `needle in hay`. -/
def containsSub (needle : List Char) : List Char → Bool
  | [] => needle.isEmpty
  | h :: rest => leadsWith needle (h :: rest) || containsSub needle rest

/-- Case-insensitive substring test `'closed' in times_str.lower()`
(calendar.py line 163), applied to the original, unprocessed string. -/
def hasClosed (l : List Char) : Bool :=
  containsSub "closed".data (l.map lowerC)

/-- One step state machine for `re.sub(r'\([^)]*\)', '', s)` (calendar.py
line 168).  The regex removes, left to right, each `(` together with the
run of non-`)` characters after it and the first following `)`.  The
accumulator `buf` holds (reversed) the characters consumed since an `(`
that has not yet found its `)`; at the end of input an unclosed group is
emitted verbatim, exactly as the regex leaves it in place. -/
def stripParensAux : List Char → List Char → List Char
  | [], buf => buf.reverse
  | c :: rest, [] =>
      if c == '(' then stripParensAux rest [c] else c :: stripParensAux rest []
  | c :: rest, b :: bs =>
      if c == ')' then stripParensAux rest []
      else stripParensAux rest (c :: b :: bs)

/-- Remove every parenthesised annotation, as `re.sub(r'\([^)]*\)', '', s)`. -/
def stripParens (l : List Char) : List Char := stripParensAux l []

/-- `re.sub(r'\s+', ' ', s)`: collapse each maximal whitespace run to one
space.  The flag records whether the previous character was whitespace. -/
def collapseWsAux : Bool → List Char → List Char
  | _, [] => []
  | inWs, c :: rest =>
      if isPySpace c then
        if inWs then collapseWsAux true rest else ' ' :: collapseWsAux true rest
      else c :: collapseWsAux false rest

def collapseWs (l : List Char) : List Char := collapseWsAux false l

/-- Python `str.strip()`: drop leading and trailing whitespace. -/
def pyStrip (l : List Char) : List Char :=
  ((l.dropWhile isPySpace).reverse.dropWhile isPySpace).reverse

/-- `re.sub(r'(\d{2}:\d{2})(\d{2}:\d{2})', r'\1 \2', s)` (calendar.py line
175): insert a space between two directly adjacent `HH:MM` tokens; scanning
resumes after each replacement, as `re.sub` does. -/
def insertSpaces : List Char → List Char
  | c0 :: c1 :: c2 :: c3 :: c4 :: c5 :: c6 :: c7 :: c8 :: c9 :: rest =>
      if time5 c0 c1 c2 c3 c4 && time5 c5 c6 c7 c8 c9 then
        c0 :: c1 :: c2 :: c3 :: c4 :: ' ' :: c5 :: c6 :: c7 :: c8 :: c9 ::
          insertSpaces rest
      else
        c0 :: insertSpaces (c1 :: c2 :: c3 :: c4 :: c5 :: c6 :: c7 :: c8 :: c9 :: rest)
  | l => l

/-- Try to match the regex `\d{2}:\d{2}\s*-\s*\d{2}:\d{2}` at the head of
the input; on success return the matched text and the remaining input. -/
def matchRange (l : List Char) : Option (List Char × List Char) :=
  match l with
  | c0 :: c1 :: c2 :: c3 :: c4 :: rest =>
      if time5 c0 c1 c2 c3 c4 then
        let ws1 := rest.takeWhile isPySpace
        match rest.dropWhile isPySpace with
        | '-' :: r2 =>
            let ws2 := r2.takeWhile isPySpace
            match r2.dropWhile isPySpace with
            | d0 :: d1 :: d2 :: d3 :: d4 :: r4 =>
                if time5 d0 d1 d2 d3 d4 then
                  some (c0 :: c1 :: c2 :: c3 :: c4 ::
                          (ws1 ++ '-' :: (ws2 ++ [d0, d1, d2, d3, d4])), r4)
                else none
            | _ => none
        | _ => none
      else none
  | _ => none

/-- `re.findall(r'\d{2}:\d{2}\s*-\s*\d{2}:\d{2}', s)` (calendar.py line
178): leftmost, non-overlapping matches.  Fuel-driven so the definition is
structurally recursive; `fuel = l.length` always suffices because every
step consumes at least one character. -/
def findRangesAux : Nat → List Char → List (List Char)
  | 0, _ => []
  | fuel + 1, l =>
      match matchRange l with
      | some (m, r) => m :: findRangesAux fuel r
      | none =>
          match l with
          | [] => []
          | _ :: rest => findRangesAux fuel rest

def findRanges (l : List Char) : List (List Char) := findRangesAux l.length l

/-- `l` is exactly `HH:MM` (regex `^\d{2}:\d{2}$`, calendar.py lines 188-189). -/
def validHHMM (l : List Char) : Bool :=
  match l with
  | [a, b, c, d, e] => time5 a b c d e
  | _ => false

/-- Per-match processing (calendar.py lines 181-190): strip whitespace,
split on the first dash (`split('-', 1)`), re-validate both sides. -/
def slotOfRange (m : List Char) : Option (List Char × List Char) :=
  let clean := m.filter (fun c => !(isPySpace c))
  if clean.contains '-' then
    let st := clean.takeWhile (fun c => c != '-')
    let en := (clean.dropWhile (fun c => c != '-')).tail
    if validHHMM st && validHHMM en then some (st, en) else none
  else none

/-- `parse_time_slots` (calendar.py lines 161-192). -/
def parse_time_slots (l : List Char) : List (List Char × List Char) :=
  if hasClosed l then []
  else
    let cleaned := stripParens l
    let normalized := insertSpaces (collapseWs (pyStrip cleaned))
    (findRanges normalized).filterMap slotOfRange

example : parse_time_slots "07:00-21:00".data = [("07:00".data, "21:00".data)] := by decide
example : parse_time_slots "Closed".data = [] := by decide

/-! ## Annotation extraction (`extract_special_notes`) -/

/-- `re.findall(r'\([^)]+\)', s)` (calendar.py line 196): every `(`,
followed by at least one non-`)` character, up to the first `)`.
Fuel-driven; `fuel = l.length` suffices as every step drops ≥ 1 char. -/
def findNotesAux : Nat → List Char → List (List Char)
  | 0, _ => []
  | _ + 1, [] => []
  | fuel + 1, c :: rest =>
      if c == '(' then
        let mid := rest.takeWhile (fun d => d != ')')
        match rest.dropWhile (fun d => d != ')') with
        | ')' :: r2 =>
            if mid.isEmpty then findNotesAux fuel rest
            else ('(' :: (mid ++ [')'])) :: findNotesAux fuel r2
        | _ => findNotesAux fuel rest
      else findNotesAux fuel rest

/-- `extract_special_notes` (calendar.py lines 194-197):
`' '.join(notes) if notes else ''`. -/
def extract_special_notes (l : List Char) : List Char :=
  match findNotesAux l.length l with
  | [] => []
  | notes => List.intercalate [' '] notes

example : extract_special_notes "09:00-16:00 (Bank Holiday)".data = "(Bank Holiday)".data := by decide
example : extract_special_notes "07:00-21:00".data = [] := by decide

/-! ## Calendar dates

`datetime` values are modelled two ways: `parse_week_date` returns the
(year, month, day) triple the source builds with `datetime(2025, month,
day)`; inside the generator, dates are ordinal day counts with day 0 =
2025-01-01, so that `+ timedelta(days=k)` is `+ k`. -/

def isLeap (y : Nat) : Bool := (y % 4 == 0 && y % 100 != 0) || y % 400 == 0

def monthLen (leap : Bool) (m : Nat) : Nat :=
  match m with
  | 1 => 31 | 2 => if leap then 29 else 28 | 3 => 31 | 4 => 30 | 5 => 31
  | 6 => 30 | 7 => 31 | 8 => 31 | 9 => 30 | 10 => 31 | 11 => 30 | 12 => 31
  | _ => 0

/-- Days of the year strictly before month `m` (1-based). -/
def cumDays (leap : Bool) : Nat → Nat
  | 0 => 0
  | 1 => 0
  | m + 1 => cumDays leap m + monthLen leap m

def daysInMonth (y m : Nat) : Nat := monthLen (isLeap y) m

/-- Ordinal day count of a (2025, m, d) triple: days since 2025-01-01. -/
def ord2025 (ymd : Nat × Nat × Nat) : Nat :=
  cumDays false ymd.2.1 + (ymd.2.2 - 1)

def yearLen (y : Nat) : Nat := if isLeap y then 366 else 365

/-- 0-based day-of-year to (month, day); fuel counts months tried. -/
def doyToMDAux (leap : Bool) : Nat → Nat → Nat → Nat × Nat
  | 0, m, o => (m, o + 1)
  | fuel + 1, m, o =>
      if o < monthLen leap m then (m, o + 1)
      else doyToMDAux leap fuel (m + 1) (o - monthLen leap m)

def doyToMD (leap : Bool) (o : Nat) : Nat × Nat := doyToMDAux leap 11 1 o

/-- Ordinal day count back to (year, month, day); fuel counts years. -/
def ordToYMDAux : Nat → Nat → Nat → Nat × Nat × Nat
  | 0, y, o => (y, doyToMD (isLeap y) o)
  | fuel + 1, y, o =>
      if o < yearLen y then (y, doyToMD (isLeap y) o)
      else ordToYMDAux fuel (y + 1) (o - yearLen y)

def ordToYMD (o : Nat) : Nat × Nat × Nat := ordToYMDAux (o + 1) 2025 o

example : ordToYMD 0 = (2025, 1, 1) := by decide
example : ordToYMD 145 = (2025, 5, 26) := by decide
example : ordToYMD 364 = (2025, 12, 31) := by decide
example : ordToYMD 365 = (2026, 1, 1) := by decide

/-- Decimal digits of a natural number (for f-string interpolation and
`strftime`); fuel-driven, `n + 1` steps always suffice. -/
def natToCharsAux : Nat → Nat → List Char
  | 0, _ => []
  | fuel + 1, n =>
      if n < 10 then [Char.ofNat (48 + n)]
      else natToCharsAux fuel (n / 10) ++ [Char.ofNat (48 + n % 10)]

def natToChars (n : Nat) : List Char := natToCharsAux (n + 1) n

/-- Zero-padded decimal of width `w` (strftime `%Y`, `%m`, `%d`). -/
def padNum (w n : Nat) : List Char :=
  List.replicate (w - (natToChars n).length) '0' ++ natToChars n

/-- `event_date.strftime('%Y%m%d')` on an ordinal date. -/
def dateStr8 (o : Nat) : List Char :=
  let ymd := ordToYMD o
  padNum 4 ymd.1 ++ padNum 2 ymd.2.1 ++ padNum 2 ymd.2.2

/-- `event_date.strftime('%Y-%m-%d')` on an ordinal date. -/
def dateStrDashed (o : Nat) : List Char :=
  let ymd := ordToYMD o
  padNum 4 ymd.1 ++ '-' :: (padNum 2 ymd.2.1 ++ '-' :: padNum 2 ymd.2.2)

example : dateStr8 145 = "20250526".data := by decide

/-! ## Week-Label Resolver (`parse_week_date`) -/

/-- Regex word character `\w`, ASCII part. -/
def isWordChar (c : Char) : Bool := c.isAlphanum || c == '_'

/-- Attempt the regex `Week beginning (\d+) (\w+)` (IGNORECASE) at the head
of the input.  `\d+` and `\w+` are greedy; the only way `\d+ ' '` can match
is a maximal digit run followed directly by a space. -/
def matchWeekAt (l : List Char) : Option (List Char × List Char) :=
  if (l.take 15).map lowerC = "week beginning ".data then
    let r := l.drop 15
    let ds := r.takeWhile Char.isDigit
    if ds.isEmpty then none
    else
      match r.dropWhile Char.isDigit with
      | ' ' :: r3 =>
          let ws := r3.takeWhile isWordChar
          if ws.isEmpty then none else some (ds, ws)
      | _ => none
  else none

/-- `re.search`: leftmost position where the pattern matches. -/
def searchWeek (l : List Char) : Option (List Char × List Char) :=
  match matchWeekAt l with
  | some r => some r
  | none =>
      match l with
      | [] => none
      | _ :: rest => searchWeek rest

/-- `int(...)` on a digit run. -/
def digitsToNat (ds : List Char) : Nat :=
  ds.foldl (fun n c => n * 10 + (c.toNat - 48)) 0

/-- The `months` dict (calendar.py lines 137-150). -/
def months : List (List Char × Nat) :=
  [("january".data, 1), ("jan".data, 1),
   ("february".data, 2), ("feb".data, 2),
   ("march".data, 3), ("mar".data, 3),
   ("april".data, 4), ("apr".data, 4),
   ("may".data, 5),
   ("june".data, 6), ("jun".data, 6),
   ("july".data, 7), ("jul".data, 7),
   ("august".data, 8), ("aug".data, 8),
   ("september".data, 9), ("sep".data, 9),
   ("october".data, 10), ("oct".data, 10),
   ("november".data, 11), ("nov".data, 11),
   ("december".data, 12), ("dec".data, 12)]

/-- `months.get(month_name)`, applied to the already-lowercased name. -/
def monthOfName (w : List Char) : Option Nat :=
  (months.find? (fun p => p.1 == w)).map Prod.snd

/-- `parse_week_date` (calendar.py lines 125-159).  The year is the
hard-coded constant 2025 (line 135); `datetime(2025, month, day)` succeeds
exactly when the day fits the month, else the caught ValueError yields
`none`. -/
def parse_week_date (l : List Char) : Option (Nat × Nat × Nat) :=
  match searchWeek l with
  | none => none
  | some (ds, w) =>
      let day := digitsToNat ds
      match monthOfName (w.map lowerC) with
      | none => none
      | some month =>
          if 1 ≤ day ∧ day ≤ daysInMonth 2025 month then some (2025, month, day)
          else none

example : parse_week_date "Week beginning 26 May".data = some (2025, 5, 26) := by decide
example : parse_week_date "Invalid format".data = none := by decide
example : parse_week_date "Week beginning 31 February".data = none := by decide

/-! ## Event Generator and Document Formatter (`generate_icalendar`) -/

/-- A `WeeklySchedule`: insertion-ordered mapping week title → (weekday
name → raw time string), as the Python dict of dicts. -/
abbrev Schedule := List (List Char × List (List Char × List Char))

/-- `day_names` (calendar.py line 215). -/
def day_names : List (List Char) :=
  ["Monday".data, "Tuesday".data, "Wednesday".data, "Thursday".data,
   "Friday".data, "Saturday".data, "Sunday".data]

/-- One generated calendar event (calendar.py lines 236-272).  `date` is
ordinal (days since 2025-01-01); `slotIndex` is the 0-based `enumerate`
index. -/
structure Event where
  date : Nat
  start_time : List Char
  end_time : List Char
  slotIndex : Nat
  totalSlots : Nat
  summary : List Char
  description : List Char
  uid : List Char
  deriving DecidableEq, Repr

/-- `uid = f"velopark-{date_str}-{start_time_str}-{slot_index}@leovalley.org.uk"`
(calendar.py line 245); `start_time_str` is the start time with the colon
removed. -/
def mkUid (date : Nat) (start_time : List Char) (slotIndex : Nat) : List Char :=
  "velopark-".data ++ dateStr8 date ++ '-' ::
    (start_time.filter (fun c => c != ':') ++ '-' ::
      (natToChars slotIndex ++ "@leovalley.org.uk".data))

/-- Event summary (calendar.py lines 248-250): a session suffix appears
only when the day has more than one window. -/
def mkSummary (total slotIndex : Nat) : List Char :=
  "Lee Valley VeloPark - Road Circuit Open".data ++
    (if total > 1 then " (Session ".data ++ natToChars (slotIndex + 1) ++ ")".data
     else [])

/-- Event description (calendar.py lines 253-255). -/
def mkDescription (include_notes : Bool) (notes : List Char) : List Char :=
  "Road cycling circuit is open for sessions and activities. Last entry one hour before closing.".data ++
    (if include_notes && !notes.isEmpty then ' ' :: notes else [])

/-- Events of one day entry (calendar.py lines 224-255): skip keys that are
not canonical weekday names; the date is the week Monday plus the weekday
offset; one event per parsed time window, in window order. -/
def dayEvents (include_notes : Bool) (monday : Nat)
    (entry : List Char × List Char) : List Event :=
  if day_names.contains entry.1 then
    let date := monday + day_names.indexOf entry.1
    let slots := parse_time_slots entry.2
    let notes := extract_special_notes entry.2
    slots.enum.map (fun p =>
      { date := date
        start_time := p.2.1
        end_time := p.2.2
        slotIndex := p.1
        totalSlots := slots.length
        summary := mkSummary slots.length p.1
        description := mkDescription include_notes notes
        uid := mkUid date p.2.1 p.1 })
  else []

/-- Events of one week entry (calendar.py lines 218-224): an unresolvable
title is silently skipped; day entries are visited in mapping order. -/
def weekEvents (include_notes : Bool)
    (w : List Char × List (List Char × List Char)) : List Event :=
  match parse_week_date w.1 with
  | none => []
  | some ymd => w.2.flatMap (dayEvents include_notes (ord2025 ymd))

/-- All events of the schedule, in emission order.  `weeks_ahead` is a
parameter of the enclosing `generate_icalendar` scope and is never read
by the loop (calendar.py lines 217-272). -/
def calendarEvents (s : Schedule) (include_notes : Bool) (weeks_ahead : Nat) :
    List Event :=
  s.flatMap (weekEvents include_notes)

/-- The Mondays of the resolvable weeks, as ordinal dates. -/
def resolvableMondays (s : Schedule) : List Nat :=
  s.filterMap (fun w => (parse_week_date w.1).map ord2025)

/-- The ten serialized lines of one VEVENT block (calendar.py lines 261-272). -/
def eventLines (now_str : List Char) (e : Event) : List (List Char) :=
  ["BEGIN:VEVENT".data,
   "UID:".data ++ e.uid,
   "DTSTART:".data ++ dateStr8 e.date ++ 'T' ::
     (e.start_time.filter (fun c => c != ':') ++ "00".data),
   "DTEND:".data ++ dateStr8 e.date ++ 'T' ::
     (e.end_time.filter (fun c => c != ':') ++ "00".data),
   "SUMMARY:".data ++ e.summary,
   "DESCRIPTION:".data ++ e.description,
   "LOCATION:Lee Valley VeloPark, Abercrombie Road, Queen Elizabeth Olympic Park, London E20 3AB".data,
   "URL:https://www.better.org.uk/leisure-centre/lee-valley/velopark/road-cycling".data,
   "DTSTAMP:".data ++ now_str,
   "END:VEVENT".data]

/-- The document-level header lines (calendar.py lines 203-212). -/
def headerLines (calendar_name : List Char) : List (List Char) :=
  ["BEGIN:VCALENDAR".data,
   "VERSION:2.0".data,
   "PRODID:-//Lee Valley VeloPark//Road Cycling Calendar//EN".data,
   "CALSCALE:GREGORIAN".data,
   "METHOD:PUBLISH".data,
   "X-WR-CALNAME:".data ++ calendar_name,
   "X-WR-CALDESC:Lee Valley VeloPark Road Cycling opening hours - Auto-updated from website".data,
   "X-WR-TIMEZONE:Europe/London".data]

/-- `"\r\n".join(ics_lines)`. -/
def joinCRLF (lines : List (List Char)) : List Char :=
  List.intercalate "\r\n".data lines

/-- `generate_icalendar` (calendar.py lines 199-277).  `now_str` stands for
the `datetime.utcnow()` DTSTAMP timestamp, held fixed for a run. -/
def generate_icalendar (s : Schedule) (calendar_name : List Char)
    (include_notes : Bool) (weeks_ahead : Nat) (now_str : List Char) : List Char :=
  joinCRLF (headerLines calendar_name ++
    (calendarEvents s include_notes weeks_ahead).flatMap (eventLines now_str) ++
    ["END:VCALENDAR".data])

/-- The final empty-schedule check of `scrape_velopark_schedule`
(calendar.py lines 115-117): an empty extracted schedule raises before any
document generation; the raised message is re-wrapped by the surrounding
handler into "Failed to parse schedule: ...". -/
def scrapeCheck (schedule_data : Schedule) : Except (List Char) Schedule :=
  if schedule_data.isEmpty then
    Except.error "No schedule data found on the website".data
  else Except.ok schedule_data

/-! ## Debug output (`generate_debug_info`, calendar.py lines 279-358) -/

/-- `event_date.strftime('%A')`: 2025-01-01 (ordinal 0) was a Wednesday. -/
def dayNameOf (o : Nat) : List Char := day_names.getD ((o + 2) % 7) []

/-- Per-day debug record (calendar.py lines 314-320).  `event_date` keeps
the ordinal date of the `datetime` the source stores. -/
structure DayDebug where
  original_text : List Char
  parsed_slots : List (List Char × List Char)
  special_notes : List Char
  event_date : Nat
  day_of_week : List Char
  deriving DecidableEq, Repr

/-- One entry of `debug_info["calendar_events"]` (calendar.py lines 337-347). -/
structure DebugEvent where
  date : List Char
  day_name : List Char
  start_time : List Char
  end_time : List Char
  summary : List Char
  session_number : Nat
  total_sessions : Nat
  original_text : List Char
  special_notes : List Char
  deriving DecidableEq, Repr

/-- Per-week debug record (calendar.py lines 294-297). -/
structure WeekDebug where
  week_start_date : Option (Nat × Nat × Nat)
  days : List (List Char × DayDebug)
  deriving DecidableEq, Repr

/-- The full debug structure; the `summary` dict (lines 352-356) is
flattened into the three final count fields. -/
structure DebugInfo where
  schedule_data : Schedule
  parsing_results : List (List Char × WeekDebug)
  calendar_events : List DebugEvent
  issues_found : List (List Char)
  total_weeks : Nat
  total_events : Nat
  issues_count : Nat
  deriving DecidableEq, Repr

/-- Process one day inside `generate_debug_info` (calendar.py lines
303-349): returns the day record, the day's debug events, and any issues
raised by the Friday slot-count check (lines 325-329); non-canonical
weekday keys are skipped. -/
def debugDay (monday : Nat) (entry : List Char × List Char) :
    Option (DayDebug × List DebugEvent × List (List Char)) :=
  if day_names.contains entry.1 then
    let dateO := monday + day_names.indexOf entry.1
    let slots := parse_time_slots entry.2
    let notes := extract_special_notes entry.2
    let fridayIssues :=
      if entry.1 = "Friday".data ∧
         containsSub "07:00-14:00 16:00-21:00".data entry.2 = true ∧
         slots.length ≠ 2 then
        ["Friday parsing issue: expected 2 slots, got ".data ++
           natToChars slots.length ++ " for '".data ++ entry.2 ++ "'".data]
      else []
    some
      ({ original_text := entry.2
         parsed_slots := slots
         special_notes := notes
         event_date := dateO
         day_of_week := dayNameOf dateO },
       slots.enum.map (fun p =>
        { date := dateStrDashed dateO
          day_name := entry.1
          start_time := p.2.1
          end_time := p.2.2
          summary := mkSummary slots.length p.1
          session_number := p.1 + 1
          total_sessions := slots.length
          original_text := entry.2
          special_notes := notes }),
       fridayIssues)
  else none

/-- Fold the day loop of one week, accumulating day records, events and
issues in day order. -/
def debugWeekDays (monday : Nat) :
    List (List Char × List Char) →
      List (List Char × DayDebug) × List DebugEvent × List (List Char)
  | [] => ([], [], [])
  | e :: rest =>
      let acc := debugWeekDays monday rest
      match debugDay monday e with
      | none => acc
      | some (dd, devs, diss) =>
          ((e.1, dd) :: acc.1, devs ++ acc.2.1, diss ++ acc.2.2)

/-- Process one week of `generate_debug_info` (calendar.py lines 291-349):
an unresolvable title records `week_start_date = None` and one issue. -/
def debugWeek (w : List Char × List (List Char × List Char)) :
    WeekDebug × List DebugEvent × List (List Char) :=
  match parse_week_date w.1 with
  | none =>
      ({ week_start_date := none, days := [] }, [],
       ["Could not parse week date: ".data ++ w.1])
  | some ymd =>
      let acc := debugWeekDays (ord2025 ymd) w.2
      ({ week_start_date := some ymd, days := acc.1 }, acc.2.1, acc.2.2)

/-- Fold the week loop, keeping week order. -/
def debugWeeks :
    Schedule → List (List Char × WeekDebug) × List DebugEvent × List (List Char)
  | [] => ([], [], [])
  | w :: rest =>
      let here := debugWeek w
      let acc := debugWeeks rest
      ((w.1, here.1) :: acc.1, here.2.1 ++ acc.2.1, here.2.2 ++ acc.2.2)

/-- `generate_debug_info` (calendar.py lines 279-358).  `weeks_ahead` is
accepted and never read. -/
def generate_debug_info (s : Schedule) (weeks_ahead : Nat) : DebugInfo :=
  let acc := debugWeeks s
  { schedule_data := s
    parsing_results := acc.1
    calendar_events := acc.2.1
    issues_found := acc.2.2
    total_weeks := s.length
    total_events := acc.2.1.length
    issues_count := acc.2.2.length }

/-! ## Helper lemmas -/

/-- A recognized month name denotes a month between 1 and 12. -/
theorem monthOfName_bounds {w : List Char} {m : Nat} (h : monthOfName w = some m) :
    1 ≤ m ∧ m ≤ 12 := by
  unfold monthOfName at h
  cases hf : months.find? (fun p => p.1 == w) with
  | none => rw [hf] at h; cases h
  | some p =>
      rw [hf] at h
      have hmem := List.mem_of_find?_eq_some hf
      have hall : ∀ q ∈ months, 1 ≤ q.2 ∧ q.2 ≤ 12 := by decide
      cases h
      exact hall p hmem

/-- A nonempty list of naturals has a least and a greatest member. -/
theorem exists_min_max (l : List Nat) (hl : l ≠ []) :
    ∃ lo hi, lo ∈ l ∧ hi ∈ l ∧ ∀ m ∈ l, lo ≤ m ∧ m ≤ hi := by
  induction l with
  | nil => exact absurd rfl hl
  | cons a t ih =>
    cases t with
    | nil =>
      refine ⟨a, a, List.mem_singleton_self a, List.mem_singleton_self a, ?_⟩
      intro m hm
      rw [List.mem_singleton] at hm
      subst hm
      exact ⟨Nat.le_refl _, Nat.le_refl _⟩
    | cons b t' =>
      obtain ⟨lo, hi, hlo, hhi, hall⟩ := ih (by simp)
      refine ⟨min a lo, max a hi, ?_, ?_, ?_⟩
      · rcases Nat.le_total a lo with h | h
        · rw [Nat.min_eq_left h]; exact List.mem_cons_self _ _
        · rw [Nat.min_eq_right h]; exact List.mem_cons_of_mem _ hlo
      · rcases Nat.le_total a hi with h | h
        · rw [Nat.max_eq_right h]; exact List.mem_cons_of_mem _ hhi
        · rw [Nat.max_eq_left h]; exact List.mem_cons_self _ _
      · intro m hm
        rcases List.mem_cons.mp hm with rfl | hm'
        · exact ⟨Nat.min_le_left _ _, Nat.le_max_left _ _⟩
        · obtain ⟨h1, h2⟩ := hall m hm'
          exact ⟨Nat.le_trans (Nat.min_le_right _ _) h1,
                 Nat.le_trans h2 (Nat.le_max_right _ _)⟩

/-- A canonical weekday name sits at offset < 7 in `day_names`. -/
theorem indexOf_day_names_lt {dn : List Char} (h : dn ∈ day_names) :
    day_names.indexOf dn < 7 := by
  simp only [day_names, List.mem_cons, List.not_mem_nil, or_false] at h
  rcases h with rfl | rfl | rfl | rfl | rfl | rfl | rfl <;> decide

/-- Structure of any emitted event: its uid is built from its own date,
start time and slot index, and its date is the Monday of a resolvable
supplied week plus a weekday offset between 0 and 6. -/
theorem calendarEvents_shape {inc : Bool} {weeks : Nat} {s : Schedule}
    {e : Event} (he : e ∈ calendarEvents s inc weeks) :
    e.uid = mkUid e.date e.start_time e.slotIndex ∧
    ∃ ymd, (∃ w ∈ s, parse_week_date w.1 = some ymd) ∧
      ord2025 ymd ≤ e.date ∧ e.date ≤ ord2025 ymd + 6 := by
  unfold calendarEvents at he
  obtain ⟨w, hw, hew⟩ := List.mem_flatMap.mp he
  unfold weekEvents at hew
  cases hp : parse_week_date w.1 with
  | none => rw [hp] at hew; simp at hew
  | some ymd =>
    rw [hp] at hew
    obtain ⟨entry, hentry, hee⟩ := List.mem_flatMap.mp hew
    unfold dayEvents at hee
    by_cases hc : day_names.contains entry.1 = true
    · rw [if_pos hc] at hee
      obtain ⟨p, hp2, rfl⟩ := List.mem_map.mp hee
      have hmem : entry.1 ∈ day_names := by simpa using hc
      have hidx := indexOf_day_names_lt hmem
      refine ⟨rfl, ymd, ⟨w, hw, hp⟩, Nat.le_add_right _ _, ?_⟩
      simp only []
      omega
    · rw [if_neg hc] at hee; simp at hee

/-! ## Claim C7 -/

/-- C7: `parse_week_date` never raises: an unmatched title pattern, an
unrecognized month name, and a day/month pair that `datetime` construction
rejects all yield the same "not resolvable" result (`none`); moreover the
function is total, and every non-`none` result is a valid 2025 date. -/
theorem parse_week_date_never_raises (l : List Char) :
    (searchWeek l = none → parse_week_date l = none) ∧
    (∀ ds w, searchWeek l = some (ds, w) →
      monthOfName (w.map lowerC) = none → parse_week_date l = none) ∧
    (∀ ds w m, searchWeek l = some (ds, w) →
      monthOfName (w.map lowerC) = some m →
      ¬(1 ≤ digitsToNat ds ∧ digitsToNat ds ≤ daysInMonth 2025 m) →
      parse_week_date l = none) ∧
    (parse_week_date l = none ∨
      ∃ m d, parse_week_date l = some (2025, m, d) ∧
        1 ≤ m ∧ m ≤ 12 ∧ 1 ≤ d ∧ d ≤ daysInMonth 2025 m) := by
  refine ⟨?_, ?_, ?_, ?_⟩
  · intro h; simp [parse_week_date, h]
  · intro ds w h hm; simp [parse_week_date, h, hm]
  · intro ds w m h hm hd; simp [parse_week_date, h, hm, hd]
  · rcases hs : searchWeek l with - | ⟨ds, w⟩
    · exact Or.inl (by simp [parse_week_date, hs])
    · rcases hm : monthOfName (w.map lowerC) with - | m
      · exact Or.inl (by simp [parse_week_date, hs, hm])
      · by_cases hd : 1 ≤ digitsToNat ds ∧ digitsToNat ds ≤ daysInMonth 2025 m
        · exact Or.inr ⟨m, digitsToNat ds,
            by simp [parse_week_date, hs, hm, hd], (monthOfName_bounds hm).1,
            (monthOfName_bounds hm).2, hd.1, hd.2⟩
        · exact Or.inl (by simp [parse_week_date, hs, hm, hd])

/-- Witness for C7: "Week beginning 31 February" matches the title
pattern with a recognized month, but `datetime(2025, 2, 31)` is rejected,
so the result is the "not resolvable" `none`, not an error. -/
theorem parse_week_date_never_raises_witness :
    parse_week_date "Week beginning 31 February".data = none :=
  (parse_week_date_never_raises _).2.2.1 "31".data "February".data 2
    (by decide) (by decide) (by decide)

/-! ## Claim C1 -/

/-- C1: every event date produced by the generator lies within the span
from the Monday of the earliest resolvable supplied week to the Sunday
(Monday + 6) of the latest resolvable supplied week, for every requested
`weeks_ahead` value — the parameter never generates dates beyond the
supplied weeks. -/
theorem events_lie_within_resolvable_week_span (s : Schedule) (inc : Bool)
    (weeks_ahead : Nat) (e : Event)
    (he : e ∈ calendarEvents s inc weeks_ahead) :
    ∃ lo hi, lo ∈ resolvableMondays s ∧ hi ∈ resolvableMondays s ∧
      (∀ m ∈ resolvableMondays s, lo ≤ m ∧ m ≤ hi) ∧
      lo ≤ e.date ∧ e.date ≤ hi + 6 := by
  obtain ⟨-, ymd, ⟨w, hw, hpw⟩, hlo, hhi⟩ := calendarEvents_shape he
  have hm : ord2025 ymd ∈ resolvableMondays s := by
    unfold resolvableMondays
    exact List.mem_filterMap.mpr ⟨w, hw, by rw [hpw]; rfl⟩
  obtain ⟨lo, hi, h1, h2, h3⟩ := exists_min_max _ (List.ne_nil_of_mem hm)
  obtain ⟨l1, l2⟩ := h3 _ hm
  exact ⟨lo, hi, h1, h2, h3, Nat.le_trans l1 hlo,
         Nat.le_trans hhi (by omega)⟩

/-- One-week schedule used to witness C1 and C9. -/
def oneWeekSchedule : Schedule :=
  [("Week beginning 26 May".data, [("Monday".data, "07:00-21:00".data)])]

/-- The single event `oneWeekSchedule` generates (ordinal 145 =
2025-05-26). -/
def oneWeekEvent : Event :=
  { date := 145
    start_time := "07:00".data
    end_time := "21:00".data
    slotIndex := 0
    totalSlots := 1
    summary := "Lee Valley VeloPark - Road Circuit Open".data
    description := "Road cycling circuit is open for sessions and activities. Last entry one hour before closing.".data
    uid := "velopark-20250526-0700-0@leovalley.org.uk".data }

/-- Witness for C1 at a concrete schedule and event. -/
theorem events_lie_within_resolvable_week_span_witness :
    ∃ lo hi, lo ∈ resolvableMondays oneWeekSchedule ∧
      hi ∈ resolvableMondays oneWeekSchedule ∧
      (∀ m ∈ resolvableMondays oneWeekSchedule, lo ≤ m ∧ m ≤ hi) ∧
      lo ≤ oneWeekEvent.date ∧ oneWeekEvent.date ≤ hi + 6 :=
  events_lie_within_resolvable_week_span oneWeekSchedule true 8 oneWeekEvent
    (by decide)

/-! ## Claim C9 -/

/-- C9: generation is deterministic and idempotent — two runs on the same
schedule and timestamp produce the identical document — and each event's
unique identifier is derived only from that event's date, start time and
sequence index within the day. -/
theorem event_uids_deterministic (s : Schedule) (name now : List Char)
    (inc : Bool) (weeks_ahead : Nat) :
    generate_icalendar s name inc weeks_ahead now =
      generate_icalendar s name inc weeks_ahead now ∧
    (calendarEvents s inc weeks_ahead).map Event.uid =
      (calendarEvents s inc weeks_ahead).map
        (fun e => mkUid e.date e.start_time e.slotIndex) ∧
    ∀ e ∈ calendarEvents s inc weeks_ahead,
      e.uid = mkUid e.date e.start_time e.slotIndex := by
  have h : ∀ e ∈ calendarEvents s inc weeks_ahead,
      e.uid = mkUid e.date e.start_time e.slotIndex :=
    fun e he => (calendarEvents_shape he).1
  exact ⟨rfl, List.map_congr_left h, h⟩

/-- Witness for C9 at a concrete schedule and event. -/
theorem event_uids_deterministic_witness :
    oneWeekEvent.uid =
      mkUid oneWeekEvent.date oneWeekEvent.start_time oneWeekEvent.slotIndex :=
  (event_uids_deterministic oneWeekSchedule [] [] true 8).2.2 oneWeekEvent
    (by decide)

/-! ## Claim C2 -/

/-- C2: the claim states that `parse_week_date` is parameterized by a
reference date and applies a December/January month-adjacency rule to pick
the year.  The code instead hard-codes `year = 2025` (calendar.py line
135) and never consults any reference date: a December week title yields
year 2025 no matter when it is resolved (the repository's own tests, e.g.
`test_year_boundary_edge_cases`, mock a January 2025 "now" and demand year
2024 here), and a January title likewise stays in 2025 for a December
reference date rather than moving to the next year. -/
theorem parse_week_date_hardcodes_year_2025 :
    parse_week_date "Week beginning 30 December".data = some (2025, 12, 30) ∧
    parse_week_date "Week beginning 31 December".data = some (2025, 12, 31) ∧
    parse_week_date "Week beginning 1 January".data = some (2025, 1, 1) := by
  refine ⟨?_, ?_, ?_⟩ <;> decide

/-! ## Claim C4 -/

/-- C4: any day string containing the substring "closed" in any letter
case — the check is performed on the original string, before annotation
stripping or any other processing — makes `parse_time_slots` return the
empty sequence. -/
theorem closed_string_yields_no_slots (l : List Char) (h : hasClosed l = true) :
    parse_time_slots l = [] := by
  simp [parse_time_slots, h]

/-- Witness for C4: "closed" occurring only inside a parenthesised
annotation, in mixed case, still empties the result. -/
theorem closed_string_yields_no_slots_witness :
    hasClosed "07:00-21:00 (Closed for maintenance)".data = true ∧
    parse_time_slots "07:00-21:00 (Closed for maintenance)".data = [] :=
  ⟨by decide, closed_string_yields_no_slots _ (by decide)⟩

/-! ## Claim C6 -/

/-- C6: two `HH:MM-HH:MM` ranges concatenated with no delimiter are split
into two separate windows, in order. -/
theorem concatenated_ranges_are_split :
    parse_time_slots "07:00-14:0016:00-21:00".data =
      [("07:00".data, "14:00".data), ("16:00".data, "21:00".data)] := by
  decide

/-! ## Claim C8 -/

/-- Counterexample for C8: `generate_icalendar` given an empty schedule
does not fail; it returns a complete (event-free) calendar document. -/
theorem empty_schedule_still_produces_document :
    generate_icalendar [] "Lee Valley VeloPark - Road Cycling".data true 8
        "20250601T120000Z".data =
      "BEGIN:VCALENDAR\r\nVERSION:2.0\r\nPRODID:-//Lee Valley VeloPark//Road Cycling Calendar//EN\r\nCALSCALE:GREGORIAN\r\nMETHOD:PUBLISH\r\nX-WR-CALNAME:Lee Valley VeloPark - Road Cycling\r\nX-WR-CALDESC:Lee Valley VeloPark Road Cycling opening hours - Auto-updated from website\r\nX-WR-TIMEZONE:Europe/London\r\nEND:VCALENDAR".data := by
  decide

/-- C8 (amended): the empty-schedule hard failure is raised by the
extractor, not by the generation core: `scrape_velopark_schedule` raises
"No schedule data found on the website" when the extracted schedule is
empty (calendar.py lines 115-116) and hands every non-empty schedule to
the caller, while `generate_icalendar` itself, given an empty schedule,
returns a header-and-footer-only document with no events. -/
theorem empty_schedule_failure_raised_by_scraper (name now : List Char)
    (inc : Bool) (weeks : Nat) :
    scrapeCheck [] = Except.error "No schedule data found on the website".data ∧
    (∀ s : Schedule, s ≠ [] → scrapeCheck s = Except.ok s) ∧
    calendarEvents [] inc weeks = [] ∧
    generate_icalendar [] name inc weeks now =
      joinCRLF (headerLines name ++ ["END:VCALENDAR".data]) := by
  refine ⟨rfl, ?_, rfl, rfl⟩
  intro s hs
  cases s with
  | nil => exact absurd rfl hs
  | cons w rest => rfl

/-- Witness for C8 (amended): a non-empty schedule passes the scraper's
emptiness check unchanged. -/
theorem empty_schedule_failure_raised_by_scraper_witness :
    scrapeCheck [("Week beginning 26 May".data, [])] =
      Except.ok [("Week beginning 26 May".data, [])] :=
  (empty_schedule_failure_raised_by_scraper [] [] true 8).2.1 _ (by decide)

/-! ## Claim C5 -/

/-- Characters before any `(` pass through the annotation-stripping state
machine unchanged. -/
theorem stripParensAux_append_no_open (pre : List Char) (h : '(' ∉ pre)
    (rest : List Char) :
    stripParensAux (pre ++ rest) [] = pre ++ stripParensAux rest [] := by
  induction pre with
  | nil => rfl
  | cons c pre' ih =>
      have hne : c ≠ '(' := fun hcc => h (List.mem_cons.mpr (Or.inl hcc.symm))
      have hc : (c == '(') = false := beq_eq_false_iff_ne.mpr hne
      have ih' := ih (fun hm => h (List.mem_cons_of_mem _ hm))
      simp only [List.cons_append, stripParensAux, hc, Bool.false_eq_true,
        if_false]
      exact congrArg (List.cons c) ih'

/-- While the machine is buffering an open group, every non-`)` character
is consumed into the buffer, and the first `)` discards the group. -/
theorem stripParensAux_to_close (mid : List Char) (h : ')' ∉ mid)
    (post : List Char) :
    ∀ b bs, stripParensAux (mid ++ ')' :: post) (b :: bs) =
      stripParensAux post [] := by
  induction mid with
  | nil => intro b bs; simp [stripParensAux]
  | cons c mid' ih =>
      intro b bs
      have hne : c ≠ ')' := fun hcc => h (List.mem_cons.mpr (Or.inl hcc.symm))
      have hc : (c == ')') = false := beq_eq_false_iff_ne.mpr hne
      simp only [List.cons_append, stripParensAux, hc, Bool.false_eq_true,
        if_false]
      exact ih (fun hm => h (List.mem_cons_of_mem _ hm)) c (b :: bs)

/-- C5: text inside a non-nested pair of parentheses never contributes a
time window: removing such a group (together with its parentheses) from a
day string leaves `parse_time_slots` unchanged, provided neither variant
contains "closed"; and in particular
"07:00-21:00 (10:00-17:00 loop only)" yields exactly the single window
07:00-21:00 even though the annotation itself has `HH:MM-HH:MM` shape. -/
theorem paren_text_never_contributes :
    (∀ pre mid post : List Char, '(' ∉ pre → ')' ∉ mid →
      hasClosed (pre ++ '(' :: (mid ++ ')' :: post)) = false →
      hasClosed (pre ++ post) = false →
      parse_time_slots (pre ++ '(' :: (mid ++ ')' :: post)) =
        parse_time_slots (pre ++ post)) ∧
    parse_time_slots "07:00-21:00 (10:00-17:00 loop only)".data =
      [("07:00".data, "21:00".data)] := by
  constructor
  · intro pre mid post hpre hmid h1 h2
    have estep : stripParensAux ('(' :: (mid ++ ')' :: post)) [] =
        stripParensAux post [] := by
      have h0 : stripParensAux ('(' :: (mid ++ ')' :: post)) [] =
          stripParensAux (mid ++ ')' :: post) ['('] := by
        simp [stripParensAux]
      rw [h0]
      exact stripParensAux_to_close mid hmid post '(' []
    have e1 : stripParens (pre ++ '(' :: (mid ++ ')' :: post)) =
        pre ++ stripParensAux post [] := by
      unfold stripParens
      rw [stripParensAux_append_no_open pre hpre, estep]
    have e2 : stripParens (pre ++ post) = pre ++ stripParensAux post [] := by
      unfold stripParens
      rw [stripParensAux_append_no_open pre hpre]
    unfold parse_time_slots
    rw [h1, h2, e1, e2]
  · decide

/-- Witness for C5: dropping the annotation "(12:00-13:00 note)" from a
concrete day string leaves the parsed windows unchanged. -/
theorem paren_text_never_contributes_witness :
    parse_time_slots ("09:00-10:00 ".data ++ '(' ::
        ("12:00-13:00 note".data ++ ')' :: " 14:00-15:00".data)) =
      parse_time_slots ("09:00-10:00 ".data ++ " 14:00-15:00".data) :=
  paren_text_never_contributes.1 "09:00-10:00 ".data "12:00-13:00 note".data
    " 14:00-15:00".data (by decide) (by decide) (by decide) (by decide)

/-! ## Claim C3 -/

/-- Strict lexicographic order on (week index, day-entry index, window
index) emission tags. -/
def lex3 (a b : Nat × Nat × Nat) : Prop :=
  a.1 < b.1 ∨ (a.1 = b.1 ∧ (a.2.1 < b.2.1 ∨ (a.2.1 = b.2.1 ∧ a.2.2 < b.2.2)))

/-- The events of one day entry, each tagged with (week index, day-entry
index, window index). -/
def taggedDay (inc : Bool) (wi di monday : Nat)
    (entry : List Char × List Char) : List ((Nat × Nat × Nat) × Event) :=
  (List.enumFrom 0 (dayEvents inc monday entry)).map
    (fun pe => ((wi, di, pe.1), pe.2))

/-- The events of one week entry, tagged with their provenance indices. -/
def taggedWeek (inc : Bool) (wi : Nat)
    (w : List Char × List (List Char × List Char)) :
    List ((Nat × Nat × Nat) × Event) :=
  match parse_week_date w.1 with
  | none => []
  | some ymd =>
      (List.enumFrom 0 w.2).flatMap
        (fun pd => taggedDay inc wi pd.1 (ord2025 ymd) pd.2)

/-- All events with provenance tags, in emission order. -/
def taggedEvents (s : Schedule) (inc : Bool) :
    List ((Nat × Nat × Nat) × Event) :=
  (List.enumFrom 0 s).flatMap (fun pw => taggedWeek inc pw.1 pw.2)

/-- Binding over an enumeration while ignoring the indices is plain
binding. -/
theorem flatMap_enumFrom {α β : Type} (f : α → List β) :
    ∀ (n : Nat) (l : List α),
      (List.enumFrom n l).flatMap (fun p => f p.2) = l.flatMap f := by
  intro n l
  induction l generalizing n with
  | nil => rfl
  | cons x l ih => simp only [List.enumFrom_cons, List.flatMap_cons, ih]

/-- Dropping the tags from a tagged week gives exactly the week's events. -/
theorem taggedWeek_map_snd (inc : Bool) (wi : Nat)
    (w : List Char × List (List Char × List Char)) :
    (taggedWeek inc wi w).map Prod.snd = weekEvents inc w := by
  unfold taggedWeek weekEvents
  cases parse_week_date w.1 with
  | none => rfl
  | some ymd =>
      show ((List.enumFrom 0 w.2).flatMap
          (fun pd => taggedDay inc wi pd.1 (ord2025 ymd) pd.2)).map Prod.snd =
        w.2.flatMap (dayEvents inc (ord2025 ymd))
      rw [List.map_flatMap,
        ← flatMap_enumFrom (fun entry => dayEvents inc (ord2025 ymd) entry) 0 w.2]
      congr 1
      funext pd
      unfold taggedDay
      rw [List.map_map]
      exact List.enumFrom_map_snd 0 (dayEvents inc (ord2025 ymd) pd.2)

/-- Dropping the tags gives exactly the emitted event sequence. -/
theorem taggedEvents_map_snd (s : Schedule) (inc : Bool) (weeks_ahead : Nat) :
    (taggedEvents s inc).map Prod.snd = calendarEvents s inc weeks_ahead := by
  unfold taggedEvents calendarEvents
  rw [List.map_flatMap, ← flatMap_enumFrom (weekEvents inc) 0 s]
  congr 1
  funext pw
  exact taggedWeek_map_snd inc pw.1 pw.2

/-- Pairwise order for a flatMap over an enumeration: inner blocks are
ordered, and a key equal to the enumeration index orders the blocks. -/
theorem pairwise_flatMap_enumFrom {α β : Type} (r : β → β → Prop)
    (f : Nat → α → List β) (key : β → Nat)
    (hkey : ∀ i x b, b ∈ f i x → key b = i)
    (hin : ∀ i x, List.Pairwise r (f i x))
    (hcross : ∀ i x j y b b', b ∈ f i x → b' ∈ f j y → key b < key b' → r b b') :
    ∀ (n : Nat) (l : List α),
      List.Pairwise r ((List.enumFrom n l).flatMap (fun p => f p.1 p.2)) := by
  intro n l
  induction l generalizing n with
  | nil => exact List.Pairwise.nil
  | cons x l ih =>
      simp only [List.enumFrom_cons, List.flatMap_cons]
      rw [List.pairwise_append]
      refine ⟨hin n x, ih (n + 1), ?_⟩
      intro a ha b hb
      obtain ⟨p, hp, hbp⟩ := List.mem_flatMap.mp hb
      have h1 : key a = n := hkey n x a ha
      have h2 : key b = p.1 := hkey p.1 p.2 b hbp
      have h3 : n + 1 ≤ p.1 := List.le_fst_of_mem_enumFrom hp
      exact hcross n x p.1 p.2 a b ha hbp (by omega)

/-- Enumeration indices strictly increase along the list. -/
theorem pairwise_fst_lt_enumFrom {α : Type} :
    ∀ (n : Nat) (l : List α),
      List.Pairwise (fun p q => p.1 < q.1) (List.enumFrom n l) := by
  intro n l
  induction l generalizing n with
  | nil => exact List.Pairwise.nil
  | cons x l ih =>
      rw [List.enumFrom_cons]
      refine List.Pairwise.cons ?_ (ih (n + 1))
      intro q hq
      have := List.le_fst_of_mem_enumFrom hq
      simp only []
      omega

/-- Every element of a tagged day carries that day's week and day indices. -/
theorem taggedDay_key {inc : Bool} {wi di monday : Nat}
    {entry : List Char × List Char} {b : (Nat × Nat × Nat) × Event}
    (hb : b ∈ taggedDay inc wi di monday entry) :
    b.1.1 = wi ∧ b.1.2.1 = di := by
  unfold taggedDay at hb
  obtain ⟨pe, -, rfl⟩ := List.mem_map.mp hb
  exact ⟨rfl, rfl⟩

/-- Tags within one day are strictly increasing in the window index. -/
theorem pairwise_taggedDay (inc : Bool) (wi di monday : Nat)
    (entry : List Char × List Char) :
    List.Pairwise (fun a b => lex3 a.1 b.1) (taggedDay inc wi di monday entry) := by
  unfold taggedDay
  rw [List.pairwise_map]
  refine (pairwise_fst_lt_enumFrom 0 _).imp ?_
  intro a b h
  exact Or.inr ⟨rfl, Or.inr ⟨rfl, h⟩⟩

/-- Every element of a tagged week carries that week's index. -/
theorem taggedWeek_key {inc : Bool} {wi : Nat}
    {w : List Char × List (List Char × List Char)}
    {b : (Nat × Nat × Nat) × Event} (hb : b ∈ taggedWeek inc wi w) :
    b.1.1 = wi := by
  unfold taggedWeek at hb
  cases hp : parse_week_date w.1 with
  | none => rw [hp] at hb; simp at hb
  | some ymd =>
      rw [hp] at hb
      obtain ⟨pd, -, hbd⟩ := List.mem_flatMap.mp hb
      exact (taggedDay_key hbd).1

/-- Tags within one week are lexicographically increasing. -/
theorem pairwise_taggedWeek (inc : Bool) (wi : Nat)
    (w : List Char × List (List Char × List Char)) :
    List.Pairwise (fun a b => lex3 a.1 b.1) (taggedWeek inc wi w) := by
  unfold taggedWeek
  cases parse_week_date w.1 with
  | none => exact List.Pairwise.nil
  | some ymd =>
      show List.Pairwise (fun a b => lex3 a.1 b.1)
        ((List.enumFrom 0 w.2).flatMap
          (fun pd => taggedDay inc wi pd.1 (ord2025 ymd) pd.2))
      refine pairwise_flatMap_enumFrom (fun a b => lex3 a.1 b.1)
        (fun di entry => taggedDay inc wi di (ord2025 ymd) entry)
        (fun b => b.1.2.1) ?_ ?_ ?_ 0 w.2
      · intro i x b hb; exact (taggedDay_key hb).2
      · intro i x; exact pairwise_taggedDay inc wi i (ord2025 ymd) x
      · intro i x j y b b' hb hb' hk
        exact Or.inr ⟨(taggedDay_key hb).1.trans (taggedDay_key hb').1.symm,
          Or.inl hk⟩

/-- The whole emission tag sequence is lexicographically increasing. -/
theorem pairwise_taggedEvents (s : Schedule) (inc : Bool) :
    List.Pairwise (fun a b => lex3 a.1 b.1) (taggedEvents s inc) := by
  unfold taggedEvents
  refine pairwise_flatMap_enumFrom (fun a b => lex3 a.1 b.1)
    (fun wi w => taggedWeek inc wi w)
    (fun b => b.1.1) ?_ ?_ ?_ 0 s
  · intro i x b hb; exact taggedWeek_key hb
  · intro i x; exact pairwise_taggedWeek inc i x
  · intro i x j y b b' hb hb' hk; exact Or.inl hk

/-- Schedule whose DaySchedule lists Tuesday before Monday. -/
def swappedDaysSchedule : Schedule :=
  [("Week beginning 2 June".data,
    [("Tuesday".data, "07:00-08:00".data), ("Monday".data, "09:00-10:00".data)])]

/-- Counterexample for C3: with Tuesday listed before Monday in the
DaySchedule mapping, the Tuesday event (2025-06-03, ordinal 153) is
emitted before the Monday event (2025-06-02, ordinal 152), so events are
not ordered by weekday offset within the week — the mapping's key order
wins. -/
theorem events_not_ordered_by_weekday_offset :
    (calendarEvents swappedDaysSchedule true 8).map Event.date = [153, 152] ∧
    ¬ List.Sorted (· ≤ ·)
        ((calendarEvents swappedDaysSchedule true 8).map Event.date) := by
  constructor
  · decide
  · decide

/-- C3 (amended): events are emitted, and serialized into the document, in
(input week order, then DaySchedule key order as supplied — not weekday
offset order — then time-window order): the provenance tags of the emitted
event sequence are strictly lexicographically increasing, untagging yields
exactly `calendarEvents`, and the document serializes that sequence in
order between header and footer. -/
theorem events_follow_supplied_mapping_order (s : Schedule) (inc : Bool)
    (weeks_ahead : Nat) (name now : List Char) :
    (taggedEvents s inc).map Prod.snd = calendarEvents s inc weeks_ahead ∧
    List.Pairwise lex3 ((taggedEvents s inc).map Prod.fst) ∧
    generate_icalendar s name inc weeks_ahead now =
      joinCRLF (headerLines name ++
        (calendarEvents s inc weeks_ahead).flatMap (eventLines now) ++
        ["END:VCALENDAR".data]) := by
  refine ⟨taggedEvents_map_snd s inc weeks_ahead, ?_, rfl⟩
  rw [List.pairwise_map]
  exact pairwise_taggedEvents s inc

/-! ## Claim C10 -/

/-- C10: the `weeks_ahead` parameter has no influence on the output: for
any two values, `generate_icalendar` produces identical documents (with
the generation timestamp held fixed) and `generate_debug_info` produces
identical debug structures. -/
theorem weeks_ahead_has_no_effect (s : Schedule) (name now : List Char)
    (inc : Bool) (w1 w2 : Nat) :
    generate_icalendar s name inc w1 now = generate_icalendar s name inc w2 now ∧
    generate_debug_info s w1 = generate_debug_info s w2 :=
  ⟨rfl, rfl⟩

end Velopark
